import Mathlib

/-!
Shallow embedding of the analytics-rs event-forwarding client
(`src/keenio.rs`) and proofs about its batching dispatcher, client
facade and event enrichment.

Modelling conventions:
* `serde_json::Value` becomes the inductive `Json`; objects are ordered
  association lists (only key lookup and insertion semantics matter to
  the statements below).  Numbers are restricted to integers, which is
  all the statements need.
* The dispatcher thread `send_events_thread` becomes a step function on
  an explicit `DispatcherState`; the results of `recv` /
  `recv_timeout` in each loop iteration are an exogenous input trace.
  The outcome of the HTTP call `post_to_keen` is an exogenous boolean
  oracle (the code only logs it).  Wall-clock time only determines when
  a `timeout` input occurs, which the trace already fixes, so the `now`
  variable is not part of the state; the timeout arithmetic it feeds is
  modelled separately by `computeTimeout`.
* Channel sends never fail while the corresponding receiver is alive;
  the facade models assume this (the dispatcher holds its receiver for
  the whole lifetime of the sender).
-/

namespace Analytics

/-- JSON values, mirroring `serde_json::Value`.  Objects are ordered
association lists over string keys; numbers are integers. -/
inductive Json where
  | null : Json
  | bool : Bool → Json
  | num : Int → Json
  | str : String → Json
  | arr : List Json → Json
  | obj : List (String × Json) → Json

/-- `serde_json::Map::insert`: replace the value at the key if present,
otherwise append the binding. -/
def objInsert (fields : List (String × Json)) (k : String) (v : Json) :
    List (String × Json) :=
  match fields with
  | [] => [(k, v)]
  | (k', v') :: rest =>
      if k' = k then (k', v) :: rest else (k', v') :: objInsert rest k v

/-- Key lookup in a JSON object's field list. -/
def objLookup (fields : List (String × Json)) (k : String) : Option Json :=
  match fields with
  | [] => none
  | (k', v) :: rest => if k' = k then some v else objLookup rest k

/-- Lookup of a top-level member of a JSON value (`none` when the value
is not an object or lacks the key). -/
def jsonGet (j : Json) (k : String) : Option Json :=
  match j with
  | .obj fields => objLookup fields k
  | _ => none

/-- The list of top-level keys of a JSON object (empty for non-objects). -/
def topLevelKeys (j : Json) : List String :=
  match j with
  | .obj fields => fields.map Prod.fst
  | _ => []

/-- `KeenInput` struct of `keenio.rs`. -/
structure KeenInput where
  ip : String
  remove_ip_property : Bool

/-- `KeenAddons` struct of `keenio.rs`. -/
structure KeenAddons where
  name : String
  input : KeenInput
  output : String

/-- `KeenInfo` struct of `keenio.rs`. -/
structure KeenInfo where
  timestamp : String
  addons : List KeenAddons

/-- Serde serialization of `KeenInput` (declared field order). -/
def KeenInput.toJson (k : KeenInput) : Json :=
  .obj [("ip", .str k.ip), ("remove_ip_property", .bool k.remove_ip_property)]

/-- Serde serialization of `KeenAddons` (declared field order). -/
def KeenAddons.toJson (a : KeenAddons) : Json :=
  .obj [("name", .str a.name), ("input", a.input.toJson), ("output", .str a.output)]

/-- Serde serialization of `KeenInfo` (declared field order). -/
def KeenInfo.toJson (i : KeenInfo) : Json :=
  .obj [("timestamp", .str i.timestamp), ("addons", .arr (i.addons.map KeenAddons.toJson))]

/-- `KeenInfo::new`. -/
def KeenInfo.new (timestamp : String) : KeenInfo :=
  { timestamp := timestamp, addons := [] }

/-- `KeenInfo::add_addon`. -/
def KeenInfo.add_addon (i : KeenInfo) (a : KeenAddons) : KeenInfo :=
  { i with addons := i.addons ++ [a] }

/-- `KeenAddons::build_ip_geo_addons`. -/
def build_ip_geo_addons (input_field_name : String) (output_field_name : String)
    (remove_ip_property : Bool) : KeenAddons :=
  { name := "keen:ip_to_geo"
    input := { ip := input_field_name, remove_ip_property := remove_ip_property }
    output := output_field_name }

/-- The placeholder IP token injected by geo enrichment. -/
def keenIpPlaceholder : String := "$\x7bkeen.ip\x7d"

/-- The enrichment step of `KeenClient::add_event_with_param`: clone the
payload and, when it is a JSON object, inject the `ip_address`
placeholder (geo variant only) and the `keen` metadata object.  The
timestamp string is passed in (the code reads the wall clock).
Non-object payloads are left untouched, exactly as in the code
(`as_object_mut` returns `None` and the `if let` body is skipped). -/
def enrichPayload (ts : String) (add_ip_geo : Bool) (json : Json) : Json :=
  match json with
  | .obj fields =>
      let keen_info := KeenInfo.new ts
      let keen_info :=
        if add_ip_geo then
          keen_info.add_addon (build_ip_geo_addons "ip_address" "ip_geo_info" true)
        else keen_info
      let fields :=
        if add_ip_geo then objInsert fields "ip_address" (.str keenIpPlaceholder)
        else fields
      .obj (objInsert fields "keen" keen_info.toJson)
  | j => j

/-- The `Event` enum of `keenio.rs`: messages on the dispatcher queue. -/
inductive Event where
  | keenEvent : String → Json → Event
  | flush : Bool → Event

/-- The error string returned by `add_event` / `flush` before `start`. -/
def notStartedError : String :=
  "Thread is not running. Function \"start\" has to be called first"

/-- `KeenClient::add_event_with_param`, returning the call's result
together with the list of messages handed to the dispatcher queue
(empty when no sender handle is installed).  `senderPresent` is whether
the mutex-guarded `sender` option currently holds a handle. -/
def add_event_with_param (senderPresent : Bool) (ts : String) (collection : String)
    (add_ip_geo : Bool) (json : Json) : Except String Unit × List Event :=
  let json_clone := enrichPayload ts add_ip_geo json
  let event := Event.keenEvent collection json_clone
  if senderPresent then (Except.ok (), [event])
  else (Except.error notStartedError, [])

/-- `KeenClient::add_event`. -/
def add_event (senderPresent : Bool) (ts : String) (collection : String)
    (json : Json) : Except String Unit × List Event :=
  add_event_with_param senderPresent ts collection false json

/-- `KeenClient::add_event_with_geo_enrichment`. -/
def add_event_with_geo_enrichment (senderPresent : Bool) (ts : String)
    (collection : String) (json : Json) : Except String Unit × List Event :=
  add_event_with_param senderPresent ts collection true json

/-- `KeenClient::flush`, returning the call's result together with the
messages handed to the queue.  The blocking wait on the sync channel is
a pure suspension (no state effect) and is not represented. -/
def flush (senderPresent : Bool) (wait : Bool) : Except String Unit × List Event :=
  if senderPresent then (Except.ok (), [Event.flush wait])
  else (Except.error notStartedError, [])

/-- `MAX_EVENTS_BY_REQUEST` from `keenio.rs`. -/
def MAX_EVENTS_BY_REQUEST : Nat := 5000

/-- The accumulated batch: map from collection name to the ordered list
of enriched payloads (`HashMap<String, Vec<Value>>`, as an association
list; only entry lookup and value semantics matter below). -/
abbrev Batch := List (String × List Json)

/-- `events.entry(collection).or_insert(Vec::new()).push(json)`: append
the payload to the end of the collection's list, creating the entry if
absent. -/
def entryPush (events : Batch) (collection : String) (json : Json) : Batch :=
  match events with
  | [] => [(collection, [json])]
  | (c, js) :: rest =>
      if c = collection then (c, js ++ [json]) :: rest
      else (c, js) :: entryPush rest collection json

/-- The list of payloads accumulated for a collection (empty when the
collection has no entry). -/
def batchGet (events : Batch) (collection : String) : List Json :=
  match events with
  | [] => []
  | (c, js) :: rest => if c = collection then js else batchGet rest collection

/-- Serialization of the batch as the POST body: a JSON object mapping
each collection name to the array of its enriched events
(`serde_json::to_string(&events)`). -/
def batchBody (events : Batch) : Json :=
  .obj (events.map fun p => (p.1, Json.arr p.2))

/-- The mutable local state of `send_events_thread`, one field per local
variable of the loop (the wall-clock `now` is omitted, see the module
comment). -/
structure DispatcherState where
  send_events : Bool
  notify_caller : Bool
  events_qty : Nat
  events : Batch
  stop_thread : Bool

/-- Initial state of the dispatcher loop locals. -/
def initialDispatcherState : DispatcherState :=
  { send_events := false, notify_caller := false, events_qty := 0,
    events := [], stop_thread := false }

/-- Observable effects of one loop iteration: the batch posted by
`post_to_keen` (with the transport outcome) if any, whether the sync
channel was signalled, and whether the loop breaks after this
iteration. -/
structure IterOutput where
  sent : Option (Batch × Bool)
  syncSignal : Bool
  stopped : Bool

/-- Result of `receiver.recv_timeout` in interval mode. -/
inductive RecvTimeoutResult where
  | ok : Event → RecvTimeoutResult
  | timeout : RecvTimeoutResult
  | disconnected : RecvTimeoutResult

/-- Result of the blocking `receiver.recv` in no-interval mode. -/
inductive RecvResult where
  | ok : Event → RecvResult
  | disconnected : RecvResult

/-- The `match receiver.recv_timeout(timeout)` arm of the loop
(interval mode). -/
def matchPhaseInterval (s : DispatcherState) (r : RecvTimeoutResult) :
    DispatcherState :=
  match r with
  | .ok (.keenEvent collection json) =>
      { s with events_qty := s.events_qty + 1,
               events := entryPush s.events collection json }
  | .ok (.flush notify) => { s with send_events := true, notify_caller := notify }
  | .timeout => { s with send_events := true }
  | .disconnected => { s with stop_thread := true }

/-- The `match receiver.recv()` arm of the loop (no-interval mode). -/
def matchPhaseNoInterval (s : DispatcherState) (r : RecvResult) :
    DispatcherState :=
  match r with
  | .ok (.keenEvent collection json) =>
      { s with events := entryPush s.events collection json, send_events := true }
  | .ok (.flush notify) => { s with send_events := true, notify_caller := notify }
  | .disconnected => { s with stop_thread := true }

/-- The tail of each loop iteration: the guarded send block (post the
serialized batch when non-empty, then clear it; reset the trigger flag
and the event count), the sync notification, and the break test.
`postOk` is the outcome `post_to_keen` would return for this
iteration's attempt; it only reaches the logs, never the state. -/
def sendPhase (postOk : Bool) (s : DispatcherState) : DispatcherState × IterOutput :=
  if s.send_events = true ∨ MAX_EVENTS_BY_REQUEST ≤ s.events_qty ∨
      s.stop_thread = true then
    let sent : Option (Batch × Bool) :=
      if s.events.isEmpty then none else some (s.events, postOk)
    let events' : Batch := if s.events.isEmpty then s.events else []
    ({ s with events := events', send_events := false, events_qty := 0 },
     { sent := sent, syncSignal := s.notify_caller, stopped := s.stop_thread })
  else
    (s, { sent := none, syncSignal := s.notify_caller, stopped := s.stop_thread })

/-- One full iteration of the dispatcher loop in interval mode. -/
def stepInterval (postOk : Bool) (s : DispatcherState) (r : RecvTimeoutResult) :
    DispatcherState × IterOutput :=
  sendPhase postOk (matchPhaseInterval s r)

/-- One full iteration of the dispatcher loop in no-interval mode. -/
def stepNoInterval (postOk : Bool) (s : DispatcherState) (r : RecvResult) :
    DispatcherState × IterOutput :=
  sendPhase postOk (matchPhaseNoInterval s r)

/-- Run of the interval-mode loop over a trace of receive results,
breaking when an iteration sets `stop_thread`.  Returns the final state
and the outputs of the executed iterations. -/
def runInterval (postOk : Bool) (s : DispatcherState) :
    List RecvTimeoutResult → DispatcherState × List IterOutput
  | [] => (s, [])
  | r :: rs =>
      let p := stepInterval postOk s r
      if p.2.stopped then (p.1, [p.2])
      else ((runInterval postOk p.1 rs).1, p.2 :: (runInterval postOk p.1 rs).2)

/-- Run of the no-interval-mode loop over a trace of receive results. -/
def runNoInterval (postOk : Bool) (s : DispatcherState) :
    List RecvResult → DispatcherState × List IterOutput
  | [] => (s, [])
  | r :: rs =>
      let p := stepNoInterval postOk s r
      if p.2.stopped then (p.1, [p.2])
      else ((runNoInterval postOk p.1 rs).1, p.2 :: (runNoInterval postOk p.1 rs).2)

/-- `ProjectSettings` from `keenio.rs`. -/
structure ProjectSettings where
  custom_domain_url : Option String
  project_id : String
  api_key : String

/-- The URL built by `post_to_keen`: always the project-wide batch
endpoint, with the default domain when no custom one is configured. -/
def keenEventsUrl (settings : ProjectSettings) : String :=
  let domain_url := settings.custom_domain_url.getD "https://api.keen.io"
  domain_url ++ "/3.0/projects/" ++ settings.project_id ++ "/events?api_key="
    ++ settings.api_key

/-- Modelled from the spec: the per-collection single-event endpoint the
spec describes for unbatched sends.  No such URL is built anywhere in
the code; this definition follows the spec's words only, for comparison
with `keenEventsUrl`. -/
def specSingleEventUrl (settings : ProjectSettings) (collection : String) : String :=
  let domain_url := settings.custom_domain_url.getD "https://api.keen.io"
  domain_url ++ "/3.0/projects/" ++ settings.project_id ++ "/events/"
    ++ collection ++ "?api_key=" ++ settings.api_key

/-- Rust `Duration` subtraction, whose panic on underflow is modelled as
`none`. -/
def durationSub (a b : Nat) : Option Nat :=
  if b ≤ a then some (a - b) else none

/-- The timeout computation at the top of each interval-mode iteration:
the subtraction is performed only under the guard `interval > elapsed`,
otherwise the timeout is zero. -/
def computeTimeout (interval elapsed : Nat) : Option Nat :=
  if elapsed < interval then durationSub interval elapsed else some 0

/-- The full per-iteration timeout, including the
`now.elapsed().unwrap_or_else` fallback that substitutes the interval
itself when the clock went backwards (`none` models the `Err` case of
`elapsed()`). -/
def iterationTimeout (interval : Nat) (elapsedResult : Option Nat) : Option Nat :=
  let elapsed := elapsedResult.getD interval
  computeTimeout interval elapsed

/-- The mutex-guarded handle state of `KeenClient` relevant to
`start`, plus a ghost counter of spawned worker threads.  Channel and
thread identities are abstracted to a numeric token. -/
structure ClientState where
  sender : Option Nat
  receiver_sync : Option Nat
  thread_handle : Option Nat
  spawned : Nat

/-- `KeenClient::start`: install the freshly created channels and spawn
the worker only when both the sender handle and the sync receiver are
absent; otherwise leave everything untouched.  `freshId` abstracts the
identity of the newly created channels and thread. -/
def start (c : ClientState) (freshId : Nat) : ClientState :=
  if c.sender.isNone ∧ c.receiver_sync.isNone then
    { sender := some freshId, receiver_sync := some freshId,
      thread_handle := some freshId, spawned := c.spawned + 1 }
  else c

/-- Accumulation of a sequence of dequeued events into a batch, in
dequeue order (iterated `entryPush`). -/
def accumulate (b : Batch) (msgs : List (String × Json)) : Batch :=
  msgs.foldl (fun acc p => entryPush acc p.1 p.2) b

/-- Concrete settings used by the closed statements below. -/
def exampleSettings : ProjectSettings :=
  { custom_domain_url := none, project_id := "proj", api_key := "key" }

/-- A dispatcher state with a pending flush trigger and one buffered
event. -/
def c5ExampleState : DispatcherState :=
  { send_events := true, notify_caller := false, events_qty := 1,
    events := [("c", [Json.null])], stop_thread := false }

/-- A dispatcher state holding 4999 accumulated events. -/
def c7ExampleState : DispatcherState :=
  { send_events := false, notify_caller := false, events_qty := 4999,
    events := [], stop_thread := false }

/-- A client whose handles are installed (after a successful `start`). -/
def runningClient : ClientState :=
  { sender := some 0, receiver_sync := some 0, thread_handle := some 0,
    spawned := 1 }

/-- A freshly constructed client with no handles installed. -/
def idleClient : ClientState :=
  { sender := none, receiver_sync := none, thread_handle := none, spawned := 0 }

/-! ### Helper lemmas -/

/-- `entryPush` never yields an empty batch. -/
theorem entryPush_ne_nil (events : Batch) (c : String) (j : Json) :
    entryPush events c j ≠ [] := by
  cases events with
  | nil => simp [entryPush]
  | cons hd tl =>
      obtain ⟨c0, js⟩ := hd
      simp only [entryPush]
      split <;> simp

/-- Effect of `entryPush` on per-collection contents: it appends to the
pushed collection's list and leaves every other collection unchanged. -/
theorem batchGet_entryPush (b : Batch) (c' c : String) (j : Json) :
    batchGet (entryPush b c' j) c =
      if c' = c then batchGet b c ++ [j] else batchGet b c := by
  induction b with
  | nil =>
      simp only [entryPush, batchGet]
      split <;> simp [batchGet]
  | cons hd tl ih =>
      obtain ⟨c0, js⟩ := hd
      simp only [entryPush]
      by_cases h1 : c0 = c'
      · subst h1
        by_cases h2 : c0 = c
        · subst h2; simp [batchGet]
        · simp [batchGet, h2]
      · rw [if_neg h1]
        by_cases h2 : c0 = c
        · subst h2
          have h3 : ¬(c' = c0) := fun hh => h1 hh.symm
          simp [batchGet, h3]
        · simp [batchGet, h2, ih]

/-- Accumulating a sequence of events extends each collection's list by
exactly that collection's payloads, in sequence order. -/
theorem accumulate_batchGet (msgs : List (String × Json)) (b : Batch) (c : String) :
    batchGet (accumulate b msgs) c =
      batchGet b c ++ (msgs.filter fun p => p.1 == c).map Prod.snd := by
  induction msgs generalizing b with
  | nil => simp [accumulate]
  | cons p rest ih =>
      simp only [accumulate, List.foldl_cons] at ih ⊢
      rw [ih, batchGet_entryPush]
      by_cases h : p.1 = c
      · simp [List.filter_cons, h]
      · simp [List.filter_cons, h]

/-- Accumulating at least one event yields a non-empty batch. -/
theorem accumulate_ne_nil (msgs : List (String × Json)) (b : Batch)
    (h : b ≠ [] ∨ msgs ≠ []) : accumulate b msgs ≠ [] := by
  induction msgs generalizing b with
  | nil =>
      simpa [accumulate] using h.resolve_right (by simp)
  | cons p rest ih =>
      simp only [accumulate, List.foldl_cons] at ih ⊢
      exact ih (entryPush b p.1 p.2) (Or.inl (entryPush_ne_nil _ _ _))

/-- An interval-mode iteration that dequeues an event without reaching
the batch-size threshold just accumulates: no send, no stop. -/
theorem stepInterval_keen (postOk : Bool) (s : DispatcherState) (c : String)
    (j : Json) (hs : s.send_events = false)
    (hq : s.events_qty + 1 < MAX_EVENTS_BY_REQUEST)
    (hst : s.stop_thread = false) :
    stepInterval postOk s (.ok (.keenEvent c j)) =
      ({ s with events_qty := s.events_qty + 1,
                events := entryPush s.events c j },
       { sent := none, syncSignal := s.notify_caller, stopped := false }) := by
  simp only [stepInterval, matchPhaseInterval, sendPhase]
  rw [if_neg]
  · simp [hst]
  · push_neg
    exact ⟨by simp [hs], by omega, by simp [hst]⟩

/-- Running the interval-mode loop over a trace of plain events that
stays below the batch-size threshold accumulates them in order and
triggers nothing. -/
theorem runInterval_keen_only (postOk : Bool) (msgs : List (String × Json))
    (s : DispatcherState)
    (hq : s.events_qty + msgs.length < MAX_EVENTS_BY_REQUEST)
    (hs : s.send_events = false) (hst : s.stop_thread = false) :
    (runInterval postOk s (msgs.map fun p => .ok (.keenEvent p.1 p.2))).1.events
        = accumulate s.events msgs ∧
    (runInterval postOk s (msgs.map fun p => .ok (.keenEvent p.1 p.2))).1.events_qty
        = s.events_qty + msgs.length ∧
    (runInterval postOk s (msgs.map fun p => .ok (.keenEvent p.1 p.2))).1.send_events
        = false ∧
    (runInterval postOk s (msgs.map fun p => .ok (.keenEvent p.1 p.2))).1.stop_thread
        = false := by
  induction msgs generalizing s with
  | nil =>
      simp [runInterval, accumulate, hs, hst]
  | cons p rest ih =>
      have hstep := stepInterval_keen postOk s p.1 p.2 hs
        (by simp only [List.length_cons] at hq; omega) hst
      simp only [List.map_cons, runInterval, hstep]
      rw [if_neg (by simp)]
      have ihr := ih { s with events_qty := s.events_qty + 1,
                              events := entryPush s.events p.1 p.2 }
        (by simp only [List.length_cons] at hq ⊢; omega) hs hst
      simp only at ihr
      refine ⟨?_, ?_, ihr.2.2.1, ihr.2.2.2⟩
      · rw [ihr.1]
        simp [accumulate]
      · rw [ihr.2.1]
        simp only [List.length_cons]
        omega

/-- Lookup after insertion at the same key yields the inserted value. -/
theorem objLookup_objInsert_self (fields : List (String × Json)) (k : String)
    (v : Json) : objLookup (objInsert fields k v) k = some v := by
  induction fields with
  | nil => simp [objInsert, objLookup]
  | cons hd tl ih =>
      obtain ⟨k0, v0⟩ := hd
      simp only [objInsert]
      by_cases h : k0 = k
      · simp [objLookup, h]
      · simp [objLookup, h, ih]

/-- Lookup at a different key is unaffected by insertion. -/
theorem objLookup_objInsert_ne (fields : List (String × Json)) (k k' : String)
    (v : Json) (h : k' ≠ k) :
    objLookup (objInsert fields k v) k' = objLookup fields k' := by
  induction fields with
  | nil =>
      simp only [objInsert, objLookup]
      rw [if_neg (fun hh : k = k' => h hh.symm)]
  | cons hd tl ih =>
      obtain ⟨k0, v0⟩ := hd
      simp only [objInsert]
      by_cases h0 : k0 = k
      · subst h0
        have hne : ¬(k0 = k') := fun hh => h hh.symm
        simp [objLookup, hne]
      · simp [objLookup, h0, ih]

/-! ### Claim theorems -/

/-- Claim C1, counterexample: in interval mode, after accumulating one
event, the iteration in which the queue reports closed performs a
transport send of the residual batch (second mapped pair: the loop
stops and a send did happen), contradicting the claim that residual
accumulated events are never transmitted on the queue-closed path. -/
theorem c1_counterexample :
    ((runInterval true initialDispatcherState
        [.ok (.keenEvent "c" (.num 1)), .disconnected]).2.map
      fun out => (out.stopped, out.sent.isSome))
      = [(false, false), (true, true)] := rfl

/-- Claim C1, amended: in both modes, the iteration that observes the
queue closed terminates the loop and, far from dropping the residual
batch, sends it whenever it is non-empty (and sends nothing only when
it is empty); the accumulator is left empty. -/
theorem c1_residual_sent_on_close (postOk : Bool) (s : DispatcherState) :
    (stepInterval postOk s .disconnected).2.stopped = true ∧
    (stepInterval postOk s .disconnected).2.sent
      = (if s.events.isEmpty then none else some (s.events, postOk)) ∧
    (stepInterval postOk s .disconnected).1.events = [] ∧
    (stepNoInterval postOk s .disconnected).2.stopped = true ∧
    (stepNoInterval postOk s .disconnected).2.sent
      = (if s.events.isEmpty then none else some (s.events, postOk)) := by
  refine ⟨?_, ?_, ?_, ?_, ?_⟩
  · simp [stepInterval, matchPhaseInterval, sendPhase]
  · simp [stepInterval, matchPhaseInterval, sendPhase]
  · cases h : s.events <;>
      simp [stepInterval, matchPhaseInterval, sendPhase, h]
  · simp [stepNoInterval, matchPhaseNoInterval, sendPhase]
  · simp [stepNoInterval, matchPhaseNoInterval, sendPhase]

/-- Claim C2 (code bug): the dispatcher never resets `notify_caller`
after signalling, so after one dequeued `Flush(true)` every later
iteration also signals the sync channel.  Here, in no-interval mode,
the trace dequeues `Flush(true)` and then a plain event; both
iterations emit a sync signal, although the claim requires a signal
exactly in the `Flush(true)` iteration. -/
theorem c2_stale_sync_signal :
    ((runNoInterval true initialDispatcherState
        [.ok (.flush true), .ok (.keenEvent "c" (.num 1))]).2.map
      fun out => (out.syncSignal, out.sent.isSome))
      = [(true, false), (true, true)] := rfl

/-- Claim C3, counterexample: in eager mode a single enriched event is
posted once, but with the collection-keyed batch mapping as body and to
the project-wide batch endpoint, not to the per-collection single-event
endpoint with the bare event as body. -/
theorem c3_counterexample :
    ((runNoInterval true initialDispatcherState
        [.ok (.keenEvent "clicks" (enrichPayload "T" false (.obj [("x", .num 1)])))]).2.map
      fun out => out.sent)
      = [some ([("clicks", [enrichPayload "T" false (.obj [("x", .num 1)])])], true)] ∧
    batchBody [("clicks", [enrichPayload "T" false (.obj [("x", .num 1)])])]
      ≠ enrichPayload "T" false (.obj [("x", .num 1)]) ∧
    keenEventsUrl exampleSettings ≠ specSingleEventUrl exampleSettings "clicks" := by
  refine ⟨rfl, ?_, ?_⟩
  · intro h
    exact absurd (congrArg topLevelKeys h) (by decide)
  · intro h
    exact absurd h (by decide)

/-- Claim C3, amended: in eager mode a single `add_event` after `start`
results in exactly one POST, whose body is the collection-keyed batch
mapping holding the single enriched event, to the project-wide batch
endpoint URL. -/
theorem c3_eager_single_event_batch_post (postOk : Bool) (ts : String)
    (collection : String) (payload : Json) :
    ((runNoInterval postOk initialDispatcherState
        [.ok (.keenEvent collection (enrichPayload ts false payload))]).2.map
      fun out => out.sent)
      = [some ([(collection, [enrichPayload ts false payload])], postOk)] ∧
    batchBody [(collection, [enrichPayload ts false payload])]
      = .obj [(collection, .arr [enrichPayload ts false payload])] ∧
    keenEventsUrl exampleSettings
      = "https://api.keen.io/3.0/projects/proj/events?api_key=key" :=
  ⟨rfl, rfl, rfl⟩

/-- Claim C4: before `start` installs the sender handle, both
`add_event` (through `add_event_with_param`, any enrichment flag) and
`flush` return the not-started error and hand nothing to the dispatcher
queue, so no transport send can result from the call. -/
theorem c4_not_started (ts : String) (collection : String)
    (add_ip_geo wait : Bool) (json : Json) :
    add_event_with_param false ts collection add_ip_geo json
      = (Except.error notStartedError, []) ∧
    flush false wait = (Except.error notStartedError, []) :=
  ⟨rfl, rfl⟩

/-- Claim C5: whenever the send block is triggered on a non-empty
batch, the batch is posted once and the accumulator is cleared and the
event count reset; the resulting state is identical whether the
transport call succeeded or failed (no retry, batch discarded). -/
theorem c5_batch_discarded_unconditionally (s : DispatcherState) (postOk : Bool)
    (htrig : s.send_events = true ∨ MAX_EVENTS_BY_REQUEST ≤ s.events_qty ∨
      s.stop_thread = true)
    (hne : s.events ≠ []) :
    (sendPhase postOk s).2.sent = some (s.events, postOk) ∧
    (sendPhase postOk s).1.events = [] ∧
    (sendPhase postOk s).1.events_qty = 0 ∧
    (sendPhase postOk s).1.send_events = false ∧
    (sendPhase true s).1 = (sendPhase false s).1 := by
  have hE : s.events.isEmpty = false := by
    cases h : s.events with
    | nil => exact absurd h hne
    | cons a l => rfl
  have hsp : ∀ pk : Bool,
      sendPhase pk s =
        ({ s with events := [], send_events := false, events_qty := 0 },
         { sent := some (s.events, pk), syncSignal := s.notify_caller,
           stopped := s.stop_thread }) := by
    intro pk
    simp only [sendPhase]
    rw [if_pos htrig]
    simp [hE]
  exact ⟨by rw [hsp], by rw [hsp], by rw [hsp], by rw [hsp],
    by rw [hsp true, hsp false]⟩

/-- Claim C5, witness at a concrete triggered state with one buffered
event. -/
theorem c5_witness :
    (sendPhase true c5ExampleState).2.sent = some ([("c", [Json.null])], true) ∧
    (sendPhase true c5ExampleState).1.events = [] ∧
    (sendPhase true c5ExampleState).1.events_qty = 0 := by
  have h := c5_batch_discarded_unconditionally c5ExampleState true
    (Or.inl rfl) (List.cons_ne_nil _ _)
  exact ⟨h.1, h.2.1, h.2.2.1⟩

/-- Claim C6: in interval mode, after dequeuing any below-threshold
sequence of events, the accumulated list for each collection is exactly
that collection's payloads in dequeue order, and a subsequent flush
transmits exactly that accumulated batch. -/
theorem c6_collection_order (postOk : Bool) (msgs : List (String × Json))
    (c : String) (hlen : msgs.length < MAX_EVENTS_BY_REQUEST) (hne : msgs ≠ []) :
    batchGet (runInterval postOk initialDispatcherState
        (msgs.map fun p => .ok (.keenEvent p.1 p.2))).1.events c
      = (msgs.filter fun p => p.1 == c).map Prod.snd ∧
    (stepInterval postOk
        (runInterval postOk initialDispatcherState
          (msgs.map fun p => .ok (.keenEvent p.1 p.2))).1
        (.ok (.flush false))).2.sent
      = some ((runInterval postOk initialDispatcherState
          (msgs.map fun p => .ok (.keenEvent p.1 p.2))).1.events, postOk) := by
  obtain ⟨he, hq, hsend, hstop⟩ := runInterval_keen_only postOk msgs
    initialDispatcherState (by simpa [initialDispatcherState] using hlen) rfl rfl
  have hfne : (runInterval postOk initialDispatcherState
      (msgs.map fun p => .ok (.keenEvent p.1 p.2))).1.events ≠ [] := by
    rw [he]
    exact accumulate_ne_nil msgs [] (Or.inr hne)
  constructor
  · rw [he]
    simpa [initialDispatcherState, batchGet] using accumulate_batchGet msgs [] c
  · simp only [stepInterval, matchPhaseInterval, sendPhase,
      if_pos (Or.inl rfl)]
    cases h : (runInterval postOk initialDispatcherState
        (msgs.map fun p => .ok (.keenEvent p.1 p.2))).1.events with
    | nil => exact absurd h hfne
    | cons a l => simp [h]

/-- Claim C6, witness: three events over two collections accumulate in
order for collection a. -/
theorem c6_witness :
    batchGet (runInterval true initialDispatcherState
        ([("a", Json.num 1), ("b", Json.num 2), ("a", Json.num 3)].map
          fun p => .ok (.keenEvent p.1 p.2))).1.events "a"
      = [Json.num 1, Json.num 3] := by
  have h := c6_collection_order true
    [("a", Json.num 1), ("b", Json.num 2), ("a", Json.num 3)] "a"
    (by decide) (List.cons_ne_nil _ _)
  exact h.1.trans rfl

/-- Claim C7: in interval mode, the iteration whose dequeued event
brings the accumulated count to the 5000-event threshold triggers a
send of the accumulated batch even though its trigger was neither a
timeout nor a flush request, and afterwards the count is zero and the
accumulator empty. -/
theorem c7_max_batch_triggers_send (postOk : Bool) (s : DispatcherState)
    (c : String) (j : Json)
    (hq : MAX_EVENTS_BY_REQUEST ≤ s.events_qty + 1) :
    (stepInterval postOk s (.ok (.keenEvent c j))).2.sent
      = some (entryPush s.events c j, postOk) ∧
    (stepInterval postOk s (.ok (.keenEvent c j))).1.events_qty = 0 ∧
    (stepInterval postOk s (.ok (.keenEvent c j))).1.events = [] := by
  have hE : (entryPush s.events c j).isEmpty = false := by
    cases h : entryPush s.events c j with
    | nil => exact absurd h (entryPush_ne_nil _ _ _)
    | cons a l => rfl
  simp only [stepInterval, matchPhaseInterval, sendPhase]
  rw [if_pos (Or.inr (Or.inl hq))]
  simp [hE]

/-- Claim C7, witness at a state holding 4999 events: the 5000th event
triggers the send and resets the count. -/
theorem c7_witness :
    (stepInterval true c7ExampleState (.ok (.keenEvent "c" (.num 1)))).2.sent
      = some ([("c", [Json.num 1])], true) ∧
    (stepInterval true c7ExampleState (.ok (.keenEvent "c" (.num 1)))).1.events_qty
      = 0 := by
  have h := c7_max_batch_triggers_send true c7ExampleState "c" (.num 1) (by decide)
  exact ⟨h.1, h.2.1⟩

/-- Claim C8: `start` on a client whose sender handle or sync receiver
is already installed changes nothing (no second worker, queue
untouched), a repeated `start` is a no-op, and the spawn counter can
only move in the state where both handles are absent (then it moves by
exactly one). -/
theorem c8_start_idempotent (c : ClientState) (i j : Nat)
    (h : c.sender.isSome ∨ c.receiver_sync.isSome) :
    start c i = c ∧ start (start c j) i = start c j ∧
    (∀ d : ClientState, (start d i).spawned ≠ d.spawned →
      d.sender = none ∧ d.receiver_sync = none ∧
        (start d i).spawned = d.spawned + 1) := by
  have hng : ¬(c.sender.isNone ∧ c.receiver_sync.isNone) := by
    rintro ⟨h1, h2⟩
    rw [Option.isNone_iff_eq_none] at h1 h2
    rcases h with h | h
    · rw [h1] at h; exact absurd h (by simp)
    · rw [h2] at h; exact absurd h (by simp)
  have hstart : start c i = c := by
    simp only [start]
    rw [if_neg hng]
  have hstartj : start c j = c := by
    simp only [start]
    rw [if_neg hng]
  refine ⟨hstart, by rw [hstartj, hstart], ?_⟩
  intro d hd
  by_cases hgd : (d.sender.isNone ∧ d.receiver_sync.isNone)
  · obtain ⟨h1, h2⟩ := hgd
    rw [Option.isNone_iff_eq_none] at h1 h2
    refine ⟨h1, h2, ?_⟩
    simp [start, h1, h2]
  · rw [start, if_neg hgd] at hd
    exact absurd rfl hd

/-- Claim C8, witness: `start` is a no-op on a running client, and on an
idle client both handles are absent and one worker is spawned. -/
theorem c8_witness :
    start runningClient 5 = runningClient ∧
    (idleClient.sender = none ∧ idleClient.receiver_sync = none ∧
      (start idleClient 5).spawned = idleClient.spawned + 1) := by
  have h := c8_start_idempotent runningClient 5 5 (Or.inl (by decide))
  exact ⟨h.1, h.2.2 idleClient (by decide)⟩

/-- Claim C9, counterexample: `add_event` accepts a non-object payload
(the call succeeds and the event is enqueued) yet its transmitted body
receives no injected keen metadata member, so the claimed enrichment
does not hold for every payload accepted by `add_event`. -/
theorem c9_counterexample :
    (add_event_with_param true "T" "c" false (.str "x")).1 = Except.ok () ∧
    (add_event_with_param true "T" "c" false (.str "x")).2
      = [Event.keenEvent "c" (.str "x")] ∧
    jsonGet (enrichPayload "T" false (.str "x")) "keen" = none :=
  ⟨rfl, rfl, rfl⟩

/-- Claim C9, amended: for every JSON object payload the transmitted
body is the caller's object plus a keen member holding the timestamp
and the addons list (empty without geo enrichment; exactly the
ip-to-geo addon with geo enrichment, together with the placeholder
ip_address member), with all other members preserved; non-object
payloads are accepted but pass through unmodified. -/
theorem c9_object_enrichment (ts : String) (fields : List (String × Json)) :
    jsonGet (enrichPayload ts false (.obj fields)) "keen"
      = some (KeenInfo.new ts).toJson ∧
    jsonGet (enrichPayload ts true (.obj fields)) "keen"
      = some ((KeenInfo.new ts).add_addon
          (build_ip_geo_addons "ip_address" "ip_geo_info" true)).toJson ∧
    jsonGet (enrichPayload ts true (.obj fields)) "ip_address"
      = some (.str keenIpPlaceholder) ∧
    (∀ k, k ≠ "keen" → k ≠ "ip_address" →
      jsonGet (enrichPayload ts true (.obj fields)) k = objLookup fields k ∧
      jsonGet (enrichPayload ts false (.obj fields)) k = objLookup fields k) ∧
    (∀ j : Json, (∀ fs, j ≠ .obj fs) →
      enrichPayload ts true j = j ∧ enrichPayload ts false j = j) := by
  refine ⟨?_, ?_, ?_, ?_, ?_⟩
  · show objLookup (objInsert fields "keen" (KeenInfo.new ts).toJson) "keen"
      = some (KeenInfo.new ts).toJson
    exact objLookup_objInsert_self _ _ _
  · show objLookup (objInsert
        (objInsert fields "ip_address" (.str keenIpPlaceholder)) "keen"
        ((KeenInfo.new ts).add_addon
          (build_ip_geo_addons "ip_address" "ip_geo_info" true)).toJson) "keen"
      = some ((KeenInfo.new ts).add_addon
          (build_ip_geo_addons "ip_address" "ip_geo_info" true)).toJson
    exact objLookup_objInsert_self _ _ _
  · show objLookup (objInsert
        (objInsert fields "ip_address" (.str keenIpPlaceholder)) "keen"
        ((KeenInfo.new ts).add_addon
          (build_ip_geo_addons "ip_address" "ip_geo_info" true)).toJson) "ip_address"
      = some (.str keenIpPlaceholder)
    rw [objLookup_objInsert_ne _ _ _ _ (by decide)]
    exact objLookup_objInsert_self _ _ _
  · intro k hk hki
    constructor
    · show objLookup (objInsert
          (objInsert fields "ip_address" (.str keenIpPlaceholder)) "keen"
          ((KeenInfo.new ts).add_addon
            (build_ip_geo_addons "ip_address" "ip_geo_info" true)).toJson) k
        = objLookup fields k
      rw [objLookup_objInsert_ne _ _ _ _ hk, objLookup_objInsert_ne _ _ _ _ hki]
    · show objLookup (objInsert fields "keen" (KeenInfo.new ts).toJson) k
        = objLookup fields k
      exact objLookup_objInsert_ne _ _ _ _ hk
  · intro j hj
    cases j with
    | obj fs => exact absurd rfl (hj fs)
    | null => exact ⟨rfl, rfl⟩
    | bool b => exact ⟨rfl, rfl⟩
    | num n => exact ⟨rfl, rfl⟩
    | str s => exact ⟨rfl, rfl⟩
    | arr a => exact ⟨rfl, rfl⟩

/-- Claim C9, witness: a concrete geo-enriched object payload carries
the keen metadata with the ip-to-geo addon, and its original member is
preserved. -/
theorem c9_witness :
    jsonGet (enrichPayload "2024-01-01T00:00:00.000Z" true
        (.obj [("x", .num 1)])) "keen"
      = some ((KeenInfo.new "2024-01-01T00:00:00.000Z").add_addon
          (build_ip_geo_addons "ip_address" "ip_geo_info" true)).toJson ∧
    jsonGet (enrichPayload "2024-01-01T00:00:00.000Z" true
        (.obj [("x", .num 1)])) "x" = some (.num 1) := by
  have h := c9_object_enrichment "2024-01-01T00:00:00.000Z" [("x", .num 1)]
  refine ⟨h.2.1, ?_⟩
  exact (h.2.2.2.1 "x" (by decide) (by decide)).1.trans rfl

/-- Claim C10: the per-iteration queue-wait timeout (including the
clock-error fallback) never hits the panicking branch of Duration
subtraction and equals the saturating difference, which as an integer
is exactly max of zero and the interval minus the elapsed time. -/
theorem c10_timeout_saturating (interval : Nat) (er : Option Nat) :
    iterationTimeout interval er = some (interval - er.getD interval) ∧
    ((interval - er.getD interval : Nat) : Int)
      = max 0 ((interval : Int) - (er.getD interval : Int)) := by
  constructor
  · simp only [iterationTimeout, computeTimeout, durationSub]
    by_cases h : er.getD interval < interval
    · rw [if_pos h, if_pos (le_of_lt h)]
    · rw [if_neg h, Nat.sub_eq_zero_of_le (le_of_not_lt h)]
  · rcases le_total (er.getD interval) interval with h | h
    · rw [max_eq_right (by omega : (0 : Int) ≤ (interval : Int) - (er.getD interval : Int))]
      omega
    · rw [Nat.sub_eq_zero_of_le h,
        max_eq_left (by omega : (interval : Int) - (er.getD interval : Int) ≤ 0)]
      simp

end Analytics
